import Mathlib

/-!
Shallow embedding of the Polymarket ladder bot (src/bot.py, class
PolymarketBot).  Python floats are modelled as rationals; every external
collaborator call (order gateway, order book, balance endpoint) is modelled
by its outcome, supplied as an input: an uncaught Python exception from a
collaborator call is the error case of an Except, and a caught one is
handled exactly where the source's try/except sits.  Stateful gateways are
modelled as functions from the call index within a loop.
-/

inductive Side
  | BUY
  | SELL
deriving DecidableEq, Repr

/-- Arguments of a create_and_post_order call (py_clob_client OrderArgs).
The token id is optional because the source obtains it via dict.get, which
may yield None. -/
structure OrderArgs where
  price : ℚ
  size : ℚ
  side : Side
  token_id : Option String
deriving DecidableEq, Repr

/-- The fields of a gateway response dict that place_ladder_orders reads:
resp.get with keys success and orderID (bot.py line 110-111). -/
structure PostResponse where
  success : Bool
  orderID : Option String
deriving DecidableEq, Repr

/-- Outcome of one create_and_post_order call: an exception, or a returned
value.  resp none stands for a falsy or non-dict response, which the source
treats the same as a success=false dict (bot.py line 110). -/
inductive SubmitOutcome
  | exn
  | resp (r : Option PostResponse)
deriving DecidableEq, Repr

/-- The orderID collected from an outcome when the source's success check
passes, none otherwise. -/
def SubmitOutcome.successId : SubmitOutcome → Option (Option String)
  | SubmitOutcome.resp (some r) => if r.success then some r.orderID else none
  | SubmitOutcome.resp none => none
  | SubmitOutcome.exn => none

def SubmitOutcome.isSuccess (o : SubmitOutcome) : Bool :=
  o.successId.isSome

/-- The for-loop of place_ladder_orders (bot.py lines 100-118): for each
price an OrderArgs is built and the gateway is called; the orderID is
appended only when the response is a dict whose success field is truthy;
both a non-success response and an exception are logged and skipped.  The
first component is the list of submission attempts actually made, the second
the accumulated order_ids list. -/
def ladder_loop (gw : ℕ → SubmitOutcome) (token_id : Option String) (size : ℚ) :
    ℕ → List ℚ → List OrderArgs × List (Option String)
  | _, [] => ([], [])
  | i, price :: rest =>
    let order_args : OrderArgs := ⟨price, size, Side.BUY, token_id⟩
    let next := ladder_loop gw token_id size (i + 1) rest
    match gw i with
    | SubmitOutcome.resp (some r) =>
        if r.success then (order_args :: next.1, r.orderID :: next.2)
        else (order_args :: next.1, next.2)
    | SubmitOutcome.resp none => (order_args :: next.1, next.2)
    | SubmitOutcome.exn => (order_args :: next.1, next.2)

/-- PolymarketBot.place_ladder_orders (bot.py lines 98-118). -/
def place_ladder_orders (gw : ℕ → SubmitOutcome) (token_id : Option String)
    (prices : List ℚ) (size : ℚ) : List OrderArgs × List (Option String) :=
  ladder_loop gw token_id size 0 prices

/-- total_max_cost as computed in PolymarketBot.run (bot.py line 265):
sum(prices) * size_per_step. -/
def total_max_cost (prices : List ℚ) (size_per_step : ℚ) : ℚ :=
  prices.sum * size_per_step

/-- One outcome token entry of the market data; token_id read via dict.get
(bot.py line 253) and hence optional. -/
structure TokenInfo where
  token_id : Option String
deriving DecidableEq, Repr

/-- The market-data fields the core reads.  Close-time fields are modelled
as parsed timestamps in seconds (a present field stands for a non-empty
parseable ISO string); clobTokenIds stands for a present string field that
json-parses to a list of token ids (bot.py lines 244-247). -/
structure MarketData where
  endDate : Option ℚ
  end_date_iso : Option ℚ
  tokens : List TokenInfo
  clobTokenIds : Option (List String)
deriving DecidableEq, Repr

/-- The close-time selection of bot.py line 84:
market_data.get with key endDate, or-else the end_date_iso field. -/
def close_time (m : MarketData) : Option ℚ :=
  m.endDate.orElse (fun _ => m.end_date_iso)

/-- PolymarketBot.check_time_remaining (bot.py lines 81-96): false when no
close-time field is present, otherwise remaining minutes compared against
the threshold. -/
def check_time_remaining (m : MarketData) (now : ℚ) (threshold_minutes : ℚ) : Bool :=
  match close_time m with
  | none => false
  | some close => decide ((close - now) / 60 > threshold_minutes)

/-- An open order as read back from the gateway; orderID via dict.get
(bot.py line 145). -/
structure OpenOrder where
  orderID : Option String
deriving DecidableEq, Repr

inductive CancelOutcome
  | ok
  | exn
deriving DecidableEq, Repr

/-- The cancellation for-loop of close_all_positions (bot.py lines 144-147).
It sits inside a single try block, so an exception raised by one cancel call
leaves the loop: the failing call is the last attempt made.  Returns the
order ids for which a cancel call was issued. -/
def cancel_loop (cancel : ℕ → CancelOutcome) : ℕ → List OpenOrder → List (Option String)
  | _, [] => []
  | i, o :: rest =>
    match cancel i with
    | CancelOutcome.ok => o.orderID :: cancel_loop cancel (i + 1) rest
    | CancelOutcome.exn => [o.orderID]

/-- Collaborator outcomes consumed by close_all_positions: the get_orders
listing (which may itself raise) and the outcome of each cancel call by
call index. -/
structure CloseInput where
  get_orders : Except Unit (List OpenOrder)
  cancel : ℕ → CancelOutcome

/-- Observable trace of close_all_positions: which cancel calls were
attempted, and the sell order submitted (if any). -/
structure CloseTrace where
  cancel_attempts : List (Option String)
  sell_attempt : Option OrderArgs
deriving DecidableEq, Repr

/-- PolymarketBot.close_all_positions (bot.py lines 138-166).  Phase 1
(listing and cancelling) is guarded by one try/except; phase 2 submits a
SELL order at price 0.01 for the full amount when amount > 0, in its own
try/except, so a phase-1 exception never prevents the sell attempt. -/
def close_all_positions (inp : CloseInput) (token_id : Option String) (amount : ℚ) :
    CloseTrace :=
  let attempts :=
    match inp.get_orders with
    | Except.error _ => []
    | Except.ok open_orders => cancel_loop inp.cancel 0 open_orders
  let sell :=
    if amount > 0 then some (⟨1 / 100, amount, Side.SELL, token_id⟩ : OrderArgs)
    else none
  ⟨attempts, sell⟩

/-- PolymarketBot.get_token_balance (bot.py lines 168-179): any exception is
caught and 0 returned; a response without a balance field defaults to 0. -/
def get_token_balance (resp : Except Unit (Option ℚ)) : ℚ :=
  match resp with
  | Except.error _ => 0
  | Except.ok b => b.getD 0

structure PriceLevel where
  price : ℚ
deriving DecidableEq, Repr

structure OrderBook where
  bids : List PriceLevel
  asks : List PriceLevel
deriving DecidableEq, Repr

/-- bids[0].price, read only after the bids list was checked non-empty
(bot.py line 215). -/
def best_bid (ob : OrderBook) : ℚ :=
  (ob.bids.headD ⟨0⟩).price

/-- The collaborator outcomes one monitor iteration may consume: the
balance query (as fed to get_token_balance), the open-orders listing, and
the order-book fetch. -/
structure IterInput where
  balance_result : Except Unit (Option ℚ)
  open_orders : Except Unit (List OpenOrder)
  book : Except Unit OrderBook

/-- How one iteration of the monitor_and_close while-loop ends:
exitNoPosition and liquidate are the two break statements (bot.py lines 195
and 224, the latter after close_all_positions with the full balance);
waitFill and waitBook are the sleep-and-continue paths; hold logs value
versus target and sleeps; caught is the except branch of the loop body
(bot.py line 228), after which the loop continues. -/
inductive IterResult
  | exitNoPosition
  | waitFill
  | waitBook
  | liquidate (amount : ℚ)
  | hold (value target : ℚ)
  | caught
deriving DecidableEq, Repr

/-- One iteration of PolymarketBot.monitor_and_close (bot.py lines 186-231). -/
def monitor_iter (inp : IterInput) (initial_total_cost : ℚ) : IterResult :=
  let balance := get_token_balance inp.balance_result
  if balance ≤ 0 then
    match inp.open_orders with
    | Except.error _ => IterResult.caught
    | Except.ok [] => IterResult.exitNoPosition
    | Except.ok (_ :: _) => IterResult.waitFill
  else
    match inp.book with
    | Except.error _ => IterResult.caught
    | Except.ok ob =>
      if ob.asks.isEmpty then IterResult.waitBook
      else if ob.bids.isEmpty then IterResult.waitBook
      else
        let current_value := balance * best_bid ob
        if current_value ≥ initial_total_cost * (13 / 10) then
          IterResult.liquidate balance
        else
          IterResult.hold current_value (initial_total_cost * (13 / 10))

/-- Whether an iteration result is one of the two break statements. -/
def IterResult.isExit : IterResult → Bool
  | IterResult.exitNoPosition => true
  | IterResult.liquidate _ => true
  | _ => false

/-- The while-True loop of monitor_and_close, run for at most fuel
iterations over a stream of per-iteration collaborator outcomes; returns
the trace of iteration results, stopping at the first break. -/
def monitor_loop (stream : ℕ → IterInput) (cost : ℚ) : ℕ → ℕ → List IterResult
  | 0, _ => []
  | fuel + 1, i =>
    let r := monitor_iter (stream i) cost
    if r.isExit then [r] else r :: monitor_loop stream cost fuel (i + 1)

def monitor_run (stream : ℕ → IterInput) (cost : ℚ) (fuel : ℕ) : List IterResult :=
  monitor_loop stream cost fuel 0

/-- Whether an iteration result is the liquidation break. -/
def IterResult.isLiquidate : IterResult → Bool
  | IterResult.liquidate _ => true
  | _ => false

/-- Observable events of PolymarketBot.run: the single time-gate evaluation,
each ladder submission attempt, and each monitor iteration. -/
inductive RunEvent
  | timeGate (result : Bool)
  | submit (args : OrderArgs)
  | monitorIter (r : IterResult)
deriving DecidableEq, Repr

/-- Whether a run event is a time-gate evaluation. -/
def RunEvent.isTimeGate : RunEvent → Bool
  | RunEvent.timeGate _ => true
  | _ => false

/-- How PolymarketBot.run ends: missing market data, no tokens found,
an uncaught IndexError while selecting the token, the time-gate early
return, or the full pipeline. -/
inductive RunOutcome
  | noMarket
  | noTokens
  | indexError
  | skipped
  | completed
deriving DecidableEq, Repr

/-- Token selection of PolymarketBot.run (bot.py lines 241-253): when the
tokens list is non-empty, tokens[outcome_index] is read with no bounds
check (an out-of-range index raises IndexError); when it is empty, the
parsed clobTokenIds list is indexed the same unguarded way, and its absence
ends the run with the no-tokens message. -/
def select_token (m : MarketData) (outcome_index : ℕ) : Except RunOutcome (Option String) :=
  match m.tokens with
  | [] =>
    match m.clobTokenIds with
    | some ids =>
      if h : outcome_index < ids.length then
        Except.ok (some (ids.get ⟨outcome_index, h⟩))
      else Except.error RunOutcome.indexError
    | none => Except.error RunOutcome.noTokens
  | t :: ts =>
    if h : outcome_index < (t :: ts).length then
      Except.ok (((t :: ts).get ⟨outcome_index, h⟩).token_id)
    else Except.error RunOutcome.indexError

/-- The hardcoded price schedule of PolymarketBot.run (bot.py line 263). -/
def ladder_prices : List ℚ := [1 / 10, 2 / 10, 3 / 10]

/-- The hardcoded per-step size of PolymarketBot.run (bot.py line 264). -/
def size_per_step : ℚ := 10

/-- PolymarketBot.run (bot.py lines 233-271): resolve market data, select
the outcome token, evaluate the time gate once (returning early when it is
false), place the ladder, and monitor with the fixed total_max_cost
baseline.  Returns the event trace and the outcome. -/
def run (md : Option MarketData) (outcome_index : ℕ) (now time_threshold : ℚ)
    (gw : ℕ → SubmitOutcome) (stream : ℕ → IterInput) (fuel : ℕ) :
    List RunEvent × RunOutcome :=
  match md with
  | none => ([], RunOutcome.noMarket)
  | some market_data =>
    match select_token market_data outcome_index with
    | Except.error e => ([], e)
    | Except.ok token_id =>
      let gate := check_time_remaining market_data now time_threshold
      if ¬ gate then ([RunEvent.timeGate gate], RunOutcome.skipped)
      else
        let placed := place_ladder_orders gw token_id ladder_prices size_per_step
        let cost := total_max_cost ladder_prices size_per_step
        let mons := monitor_run stream cost fuel
        (RunEvent.timeGate gate :: (placed.1.map RunEvent.submit
            ++ mons.map RunEvent.monitorIter),
          RunOutcome.completed)

/-! ### Helper lemmas -/

/-- The ladder loop attempts one submission per schedule entry, in schedule
order, regardless of the gateway outcomes. -/
theorem ladder_loop_attempts (gw : ℕ → SubmitOutcome) (tok : Option String)
    (size : ℚ) :
    ∀ (prices : List ℚ) (i : ℕ),
      (ladder_loop gw tok size i prices).1
        = prices.map (fun p => (⟨p, size, Side.BUY, tok⟩ : OrderArgs)) := by
  intro prices
  induction prices with
  | nil => intro i; rfl
  | cons p rest ih =>
    intro i
    simp only [ladder_loop, List.map_cons]
    cases hgw : gw i with
    | exn => simp [ih]
    | resp r =>
      cases r with
      | none => simp [ih]
      | some pr => by_cases h : pr.success <;> simp [h, ih]

/-- The ids collected by the ladder loop are exactly the successIds of the
gateway outcomes for the call indices used, in order. -/
theorem ladder_loop_ids (gw : ℕ → SubmitOutcome) (tok : Option String)
    (size : ℚ) :
    ∀ (prices : List ℚ) (i : ℕ),
      (ladder_loop gw tok size i prices).2
        = (List.range' i prices.length).filterMap (fun j => (gw j).successId) := by
  intro prices
  induction prices with
  | nil => intro i; rfl
  | cons p rest ih =>
    intro i
    simp only [ladder_loop, List.length_cons, List.range'_succ, List.filterMap_cons]
    cases hgw : gw i with
    | exn => simp [SubmitOutcome.successId, ih]
    | resp r =>
      cases r with
      | none => simp [SubmitOutcome.successId, ih]
      | some pr =>
        by_cases h : pr.success <;> simp [SubmitOutcome.successId, h, ih]

theorem length_filterMap_countP {α β : Type} (f : α → Option β) :
    ∀ l : List α, (l.filterMap f).length = l.countP (fun a => (f a).isSome) := by
  intro l
  induction l with
  | nil => rfl
  | cons a l ih =>
    cases h : f a <;> simp [List.filterMap_cons, h, List.countP_cons, ih]

/-- Counting a predicate over range n when it fails at exactly one index. -/
theorem countP_range_one_false (p : ℕ → Bool) :
    ∀ (n k : ℕ), k < n → p k = false → (∀ j, j < n → j ≠ k → p j = true) →
      (List.range n).countP p = n - 1 := by
  intro n
  induction n with
  | zero => intro k hk _ _; exact absurd hk (Nat.not_lt_zero k)
  | succ n ih =>
    intro k hk hpk hpt
    rw [List.range_succ, List.countP_append]
    by_cases hkn : k = n
    · subst hkn
      have h1 : (List.range k).countP p = (List.range k).length := by
        rw [List.countP_eq_length]
        intro a ha
        have halt : a < k := List.mem_range.mp ha
        exact hpt a (Nat.lt_succ_of_lt halt) (Nat.ne_of_lt halt)
      have h2 : List.countP p [k] = 0 := by
        simp [List.countP_cons, hpk]
      rw [h1, h2, List.length_range]
      omega
    · have hkn' : k < n := by omega
      have h2 : (List.range n).countP p = n - 1 :=
        ih k hkn' hpk (fun j hj hne => hpt j (by omega) hne)
      have h3 : List.countP p [n] = 1 := by
        simp [List.countP_cons, hpt n (by omega) (by omega)]
      rw [h2, h3]
      omega

/-! ### Claim theorems -/

/-- Claim C6: the Time Gate returns true iff the remaining time until the
selected close time exceeds the threshold in minutes; the close time is the
endDate field when present, else the end_date_iso fallback; when neither is
present the gate returns false. -/
theorem claim6_time_gate (m : MarketData) (now th : ℚ) :
    (check_time_remaining m now th = true ↔
      ∃ c, close_time m = some c ∧ (c - now) / 60 > th)
    ∧ (close_time m = none → check_time_remaining m now th = false)
    ∧ (∀ c, m.endDate = some c → close_time m = some c)
    ∧ (m.endDate = none → close_time m = m.end_date_iso) := by
  refine ⟨?_, ?_, ?_, ?_⟩
  · cases h : close_time m with
    | none => simp [check_time_remaining, h]
    | some c => simp [check_time_remaining, h]
  · intro h
    simp [check_time_remaining, h]
  · intro c hc
    simp [close_time, hc, Option.orElse]
  · intro h
    simp [close_time, h, Option.orElse]

/-- Witness for C6, instantiating the spec examples: with now = 0,
close time = 1200 seconds (20 minutes) in the granular field and threshold
13, the gate passes; with close time = 600 seconds (10 minutes) it does
not; with no close-time field at all it returns false. -/
theorem claim6_witness :
    check_time_remaining ⟨some 1200, none, [], none⟩ 0 13 = true
    ∧ check_time_remaining ⟨some 600, none, [], none⟩ 0 13 = false
    ∧ check_time_remaining ⟨none, none, [], none⟩ 0 13 = false := by
  refine ⟨?_, ?_, ?_⟩
  · exact (claim6_time_gate ⟨some 1200, none, [], none⟩ 0 13).1.mpr
      ⟨1200, rfl, by norm_num⟩
  · have h := (claim6_time_gate ⟨some 600, none, [], none⟩ 0 13).1
    by_contra hc
    rw [Bool.not_eq_false] at hc
    obtain ⟨c, hc1, hc2⟩ := h.mp hc
    have hc600 : (600 : ℚ) = c := by simpa [close_time, Option.orElse] using hc1
    rw [← hc600] at hc2
    norm_num at hc2
  · exact (claim6_time_gate ⟨none, none, [], none⟩ 0 13).2.1 rfl

/-- Claim C7: for every price schedule and per-step size, the ladder
consists of exactly one BUY order of that size per schedule entry, in
schedule order, and the derived maximum cost equals size times the sum of
the prices. -/
theorem claim7_ladder_shape (gw : ℕ → SubmitOutcome) (tok : Option String)
    (prices : List ℚ) (size : ℚ) :
    (place_ladder_orders gw tok prices size).1
        = prices.map (fun p => (⟨p, size, Side.BUY, tok⟩ : OrderArgs))
    ∧ (place_ladder_orders gw tok prices size).1.length = prices.length
    ∧ total_max_cost prices size = size * prices.sum := by
  refine ⟨ladder_loop_attempts gw tok size prices 0, ?_, ?_⟩
  · rw [place_ladder_orders, ladder_loop_attempts gw tok size prices 0]
    exact List.length_map prices _
  · rw [total_max_cost]
    exact mul_comm prices.sum size

/-- Counterexample to claim C4: the schedule [0, 1/2] contains the price 0,
which is ≤ 0, yet place_ladder_orders attempts a gateway submission for
both entries — including one at price 0 — instead of rejecting the
schedule before any order is submitted; no InvalidPlanError exists in the
code. -/
theorem claim4_counterexample :
    (place_ladder_orders (fun _ => SubmitOutcome.resp (some ⟨true, some "oid"⟩))
        (some "tok") [0, 1 / 2] 10).1
      = [⟨0, 10, Side.BUY, some "tok"⟩, ⟨1 / 2, 10, Side.BUY, some "tok"⟩]
    ∧ ((0 : ℚ) ≤ 0) := by
  exact ⟨rfl, le_refl 0⟩

/-- Claim C4 as amended: the code performs no schedule validation at all —
for every schedule and size, every entry, including prices ≤ 0 or ≥ 1 and
non-positive sizes, results in a gateway submission attempt, and no error
is raised before submission. -/
theorem claim4_amended_no_validation (gw : ℕ → SubmitOutcome)
    (tok : Option String) (prices : List ℚ) (size : ℚ) (p : ℚ)
    (hp : p ∈ prices) :
    (place_ladder_orders gw tok prices size).1.length = prices.length
    ∧ (⟨p, size, Side.BUY, tok⟩ : OrderArgs)
        ∈ (place_ladder_orders gw tok prices size).1 := by
  constructor
  · rw [place_ladder_orders, ladder_loop_attempts gw tok size prices 0]
    exact List.length_map prices _
  · rw [place_ladder_orders, ladder_loop_attempts gw tok size prices 0]
    exact List.mem_map_of_mem _ hp

/-- Witness for the amended C4: the invalid price 0 in the schedule
[0, 1/2] is submitted rather than rejected. -/
theorem claim4_amended_witness :
    (place_ladder_orders (fun _ => SubmitOutcome.exn) (some "tok")
        [0, 1 / 2] 10).1.length = ([0, 1 / 2] : List ℚ).length
    ∧ (⟨0, 10, Side.BUY, some "tok"⟩ : OrderArgs)
        ∈ (place_ladder_orders (fun _ => SubmitOutcome.exn) (some "tok")
            [0, 1 / 2] 10).1 :=
  claim4_amended_no_validation (fun _ => SubmitOutcome.exn) (some "tok")
    [0, 1 / 2] 10 0 (by simp)

/-- The cancellation loop aborts at the first throwing cancel call: when
the k-th call (0-based) throws and every earlier call succeeds, exactly the
first k+1 orders receive a cancellation attempt. -/
theorem cancel_loop_abort (cancel : ℕ → CancelOutcome) :
    ∀ (orders : List OpenOrder) (i k : ℕ), k < orders.length →
      cancel (i + k) = CancelOutcome.exn →
      (∀ j, j < k → cancel (i + j) = CancelOutcome.ok) →
      cancel_loop cancel i orders = (orders.take (k + 1)).map OpenOrder.orderID := by
  intro orders
  induction orders with
  | nil =>
    intro i k hk _ _
    exact absurd hk (Nat.not_lt_zero k)
  | cons o rest ih =>
    intro i k hk hexn hok
    cases k with
    | zero =>
      have h0 : cancel i = CancelOutcome.exn := by simpa using hexn
      simp [cancel_loop, h0]
    | succ k =>
      have h0 : cancel i = CancelOutcome.ok := by
        have := hok 0 (Nat.succ_pos k)
        simpa using this
      have hrest : cancel_loop cancel (i + 1) rest
          = (rest.take (k + 1)).map OpenOrder.orderID := by
        refine ih (i + 1) k (by simpa using hk) ?_ ?_
        · rw [show i + 1 + k = i + (k + 1) by omega]
          exact hexn
        · intro j hj
          rw [show i + 1 + j = i + (j + 1) by omega]
          exact hok (j + 1) (by omega)
      simp [cancel_loop, h0, hrest]

/-- Counterexample to claim C1: with two open orders where exactly the
first cancel call throws (call 0 throws, every later call succeeds), only
one cancellation attempt is made — the loop shares a single exception
handler, so the second order is never attempted. -/
theorem claim1_counterexample :
    (close_all_positions
        ⟨Except.ok [⟨some "a"⟩, ⟨some "b"⟩],
          fun i => if i = 0 then CancelOutcome.exn else CancelOutcome.ok⟩
        (some "tok") 5).cancel_attempts = [some "a"]
    ∧ ([(⟨some "a"⟩ : OpenOrder), ⟨some "b"⟩] : List OpenOrder).length = 2 :=
  ⟨rfl, rfl⟩

/-- Claim C1 as amended: a throwing cancel call aborts the remaining
cancellation attempts (the whole cancellation loop shares one exception
handler), so when the k-th call throws and earlier ones succeed, exactly
the first k+1 orders are attempted; the subsequent sell-order submission is
unaffected and still happens whenever amount > 0. -/
theorem claim1_amended_cancel_abort (cancel : ℕ → CancelOutcome)
    (orders : List OpenOrder) (tok : Option String) (amount : ℚ) (k : ℕ)
    (hk : k < orders.length) (hexn : cancel k = CancelOutcome.exn)
    (hok : ∀ j, j < k → cancel j = CancelOutcome.ok) :
    (close_all_positions ⟨Except.ok orders, cancel⟩ tok amount).cancel_attempts
        = (orders.take (k + 1)).map OpenOrder.orderID
    ∧ (close_all_positions ⟨Except.ok orders, cancel⟩ tok amount).sell_attempt
        = (if amount > 0 then some (⟨1 / 100, amount, Side.SELL, tok⟩ : OrderArgs)
           else none) := by
  constructor
  · show cancel_loop cancel 0 orders = (orders.take (k + 1)).map OpenOrder.orderID
    exact cancel_loop_abort cancel orders 0 k hk (by simpa using hexn)
      (fun j hj => by simpa using hok j hj)
  · rfl

/-- Witness for the amended C1: three open orders, the second cancel call
throws; exactly the first two orders are attempted and the sell order at
price 0.01 for the positive amount 5 is still submitted. -/
theorem claim1_amended_witness :
    (close_all_positions
        ⟨Except.ok [⟨some "x"⟩, ⟨some "y"⟩, ⟨some "z"⟩],
          fun i => if i = 1 then CancelOutcome.exn else CancelOutcome.ok⟩
        (some "tok") 5).cancel_attempts
      = (([(⟨some "x"⟩ : OpenOrder), ⟨some "y"⟩, ⟨some "z"⟩].take 2).map
          OpenOrder.orderID)
    ∧ (close_all_positions
        ⟨Except.ok [⟨some "x"⟩, ⟨some "y"⟩, ⟨some "z"⟩],
          fun i => if i = 1 then CancelOutcome.exn else CancelOutcome.ok⟩
        (some "tok") 5).sell_attempt
      = (if (5 : ℚ) > 0
         then some (⟨1 / 100, 5, Side.SELL, some "tok"⟩ : OrderArgs)
         else none) :=
  claim1_amended_cancel_abort
    (fun i => if i = 1 then CancelOutcome.exn else CancelOutcome.ok)
    [⟨some "x"⟩, ⟨some "y"⟩, ⟨some "z"⟩] (some "tok") 5 1 (by decide) rfl
    (fun j hj => by
      have hj0 : j = 0 := by omega
      subst hj0
      rfl)

/-- When the polled balance is non-positive, the iteration is decided by
the open-orders listing alone. -/
theorem monitor_iter_zero_balance (inp : IterInput) (cost : ℚ)
    (hb : get_token_balance inp.balance_result ≤ 0) :
    monitor_iter inp cost
      = match inp.open_orders with
        | Except.error _ => IterResult.caught
        | Except.ok [] => IterResult.exitNoPosition
        | Except.ok (_ :: _) => IterResult.waitFill := by
  simp only [monitor_iter]
  rw [if_pos hb]

/-- When the polled balance is positive and both book sides are present,
the iteration compares balance times best bid against the fixed target. -/
theorem monitor_iter_priced (inp : IterInput) (cost b : ℚ) (ob : OrderBook)
    (hb : get_token_balance inp.balance_result = b) (hpos : 0 < b)
    (hob : inp.book = Except.ok ob) (hasks : ob.asks ≠ []) (hbids : ob.bids ≠ []) :
    monitor_iter inp cost
      = if b * best_bid ob ≥ cost * (13 / 10) then IterResult.liquidate b
        else IterResult.hold (b * best_bid ob) (cost * (13 / 10)) := by
  have hnle : ¬ get_token_balance inp.balance_result ≤ 0 := by
    rw [hb]
    exact not_le.mpr hpos
  simp only [monitor_iter, hb, hob]
  rw [if_neg (hb ▸ hnle)]
  have ha : ob.asks.isEmpty = false := by
    simpa [List.isEmpty_iff] using hasks
  have hbd : ob.bids.isEmpty = false := by
    simpa [List.isEmpty_iff] using hbids
  simp [ha, hbd]

/-- Every hold result carries the fixed target initial_total_cost times
13/10: the target is never recomputed within a session. -/
theorem monitor_iter_hold_target (inp : IterInput) (cost v t : ℚ)
    (h : monitor_iter inp cost = IterResult.hold v t) : t = cost * (13 / 10) := by
  simp only [monitor_iter] at h
  split at h
  · split at h <;> simp_all
  · split at h
    · simp_all
    · split at h
      · simp_all
      · split at h
        · simp_all
        · split at h <;> simp_all

/-- The fixed-target property lifted to the whole loop trace. -/
theorem monitor_loop_hold_target (s : ℕ → IterInput) (c : ℚ) :
    ∀ (n i : ℕ) (v t : ℚ),
      IterResult.hold v t ∈ monitor_loop s c n i → t = c * (13 / 10) := by
  intro n
  induction n with
  | zero =>
    intro i v t h
    simp [monitor_loop] at h
  | succ n ih =>
    intro i v t h
    simp only [monitor_loop] at h
    by_cases hex : (monitor_iter (s i) c).isExit
    · rw [if_pos hex] at h
      rw [List.mem_singleton] at h
      exact monitor_iter_hold_target (s i) c v t h.symm
    · rw [if_neg hex] at h
      rcases List.mem_cons.mp h with h1 | h2
      · exact monitor_iter_hold_target (s i) c v t h1.symm
      · exact ih (i + 1) v t h2

/-- Claim C9: when the polled balance is non-positive and no open orders
remain, the monitor loop terminates on that iteration without any
liquidation; when open orders remain it waits and retries. -/
theorem claim9_zero_balance_exit (stream : ℕ → IterInput) (cost : ℚ)
    (fuel : ℕ) (b : ℚ)
    (hb : (stream 0).balance_result = Except.ok (some b)) (hble : b ≤ 0) :
    ((stream 0).open_orders = Except.ok [] →
      monitor_run stream cost (fuel + 1) = [IterResult.exitNoPosition]
      ∧ ∀ a : ℚ, IterResult.liquidate a ∉ monitor_run stream cost (fuel + 1))
    ∧ (∀ (o : OpenOrder) (os : List OpenOrder),
        (stream 0).open_orders = Except.ok (o :: os) →
        monitor_iter (stream 0) cost = IterResult.waitFill) := by
  have hgb : get_token_balance (stream 0).balance_result ≤ 0 := by
    rw [hb]
    simpa [get_token_balance] using hble
  constructor
  · intro hoo
    have hiter : monitor_iter (stream 0) cost = IterResult.exitNoPosition := by
      rw [monitor_iter_zero_balance (stream 0) cost hgb, hoo]
    constructor
    · simp [monitor_run, monitor_loop, hiter, IterResult.isExit]
    · intro a
      simp [monitor_run, monitor_loop, hiter, IterResult.isExit]
  · intro o os hoo
    rw [monitor_iter_zero_balance (stream 0) cost hgb, hoo]

/-- Witness for C9: balance 0 and an empty open-orders listing terminate
the monitor after a single iteration with no liquidation. -/
theorem claim9_witness :
    monitor_run
        (fun _ => (⟨Except.ok (some 0), Except.ok [], Except.error ()⟩ : IterInput))
        6 1
      = [IterResult.exitNoPosition] :=
  ((claim9_zero_balance_exit
      (fun _ => (⟨Except.ok (some 0), Except.ok [], Except.error ()⟩ : IterInput))
      6 0 0 rfl (le_refl 0)).1 rfl).1

/-- Claim C3: with positive balance and both book sides present, the
computed current value is balance times best bid; when it reaches the fixed
target initial_total_cost times 13/10, the Liquidation Controller is invoked
exactly once with the full balance and the loop terminates; every hold
iteration of any session compares against initial_total_cost times 13/10,
never a recomputed target. -/
theorem claim3_profit_trigger (stream : ℕ → IterInput) (cost : ℚ)
    (fuel : ℕ) (b : ℚ) (ob : OrderBook)
    (hb : (stream 0).balance_result = Except.ok (some b)) (hpos : 0 < b)
    (hob : (stream 0).book = Except.ok ob)
    (hasks : ob.asks ≠ []) (hbids : ob.bids ≠ []) :
    (monitor_iter (stream 0) cost
        = if b * best_bid ob ≥ cost * (13 / 10) then IterResult.liquidate b
          else IterResult.hold (b * best_bid ob) (cost * (13 / 10)))
    ∧ (b * best_bid ob ≥ cost * (13 / 10) →
        monitor_run stream cost (fuel + 1) = [IterResult.liquidate b]
        ∧ (monitor_run stream cost (fuel + 1)).countP IterResult.isLiquidate = 1)
    ∧ (∀ (s : ℕ → IterInput) (c : ℚ) (n i : ℕ) (v t : ℚ),
        IterResult.hold v t ∈ monitor_loop s c n i → t = c * (13 / 10)) := by
  have hgb : get_token_balance (stream 0).balance_result = b := by
    simp [get_token_balance, hb]
  have hiter := monitor_iter_priced (stream 0) cost b ob hgb hpos hob hasks hbids
  refine ⟨hiter, ?_, monitor_loop_hold_target⟩
  intro hge
  have hliq : monitor_iter (stream 0) cost = IterResult.liquidate b := by
    rw [hiter, if_pos hge]
  constructor
  · simp [monitor_run, monitor_loop, hliq, IterResult.isExit]
  · simp [monitor_run, monitor_loop, hliq, IterResult.isExit,
      List.countP_cons, IterResult.isLiquidate]

/-- Witness for C3, instantiating the spec example: balance 100, best bid
9/20 (0.45), cost 6 (prices 1/10+2/10+3/10 times size 10): the current
value 45 reaches the target 7.8 and the loop ends with a single
liquidation of the full 100 balance. -/
theorem claim3_witness :
    monitor_run
        (fun _ => (⟨Except.ok (some 100), Except.ok [],
          Except.ok ⟨[⟨9 / 20⟩], [⟨1 / 2⟩]⟩⟩ : IterInput))
        6 1
      = [IterResult.liquidate 100] :=
  ((claim3_profit_trigger
      (fun _ => (⟨Except.ok (some 100), Except.ok [],
        Except.ok ⟨[⟨9 / 20⟩], [⟨1 / 2⟩]⟩⟩ : IterInput))
      6 0 100 ⟨[⟨9 / 20⟩], [⟨1 / 2⟩]⟩ rfl (by norm_num) rfl (by simp)
      (by simp)).2.1 (by norm_num [best_bid])).1

/-- Counterexample to claim C2: on an iteration whose balance query raises
(and whose open-orders listing is empty), the loop does not continue to the
next iteration — the caught exception reads as balance 0, the zero-balance
branch runs, and the loop exits on that very iteration. -/
theorem claim2_counterexample :
    monitor_iter (⟨Except.error (), Except.ok [], Except.error ()⟩ : IterInput) 6
        = IterResult.exitNoPosition
    ∧ IterResult.isExit IterResult.exitNoPosition = true :=
  ⟨rfl, rfl⟩

/-- Claim C2 as amended: no exception ever propagates out of an iteration;
an exception in the open-orders query or the order-book query makes the
iteration end in the caught branch and the loop continues; an exception in
the balance query is caught inside the balance helper and reads as balance
0, so that iteration proceeds down the zero-balance path (and can therefore
exit in that same iteration when no open orders remain); the loop exits
only via the zero-balance/zero-open-orders break or the profit-target
liquidation break. -/
theorem claim2_amended_iteration_exits (inp : IterInput) (cost : ℚ) :
    (∀ e : Unit, inp.balance_result = Except.error e →
      get_token_balance inp.balance_result = 0)
    ∧ (get_token_balance inp.balance_result ≤ 0 →
        ∀ e : Unit, inp.open_orders = Except.error e →
          monitor_iter inp cost = IterResult.caught)
    ∧ (0 < get_token_balance inp.balance_result →
        ∀ e : Unit, inp.book = Except.error e →
          monitor_iter inp cost = IterResult.caught)
    ∧ ((monitor_iter inp cost).isExit = true →
        (get_token_balance inp.balance_result ≤ 0
          ∧ inp.open_orders = Except.ok []
          ∧ monitor_iter inp cost = IterResult.exitNoPosition)
        ∨ (∃ ob : OrderBook, inp.book = Except.ok ob
            ∧ 0 < get_token_balance inp.balance_result
            ∧ ob.asks ≠ [] ∧ ob.bids ≠ []
            ∧ get_token_balance inp.balance_result * best_bid ob ≥ cost * (13 / 10)
            ∧ monitor_iter inp cost
                = IterResult.liquidate (get_token_balance inp.balance_result))) := by
  refine ⟨?_, ?_, ?_, ?_⟩
  · intro e he
    rw [he]
    rfl
  · intro hb e hoo
    rw [monitor_iter_zero_balance inp cost hb, hoo]
  · intro hpos e hob
    have hb : ¬ get_token_balance inp.balance_result ≤ 0 := not_le.mpr hpos
    simp only [monitor_iter]
    rw [if_neg hb, hob]
  · intro hex
    by_cases hb : get_token_balance inp.balance_result ≤ 0
    · left
      rw [monitor_iter_zero_balance inp cost hb] at hex
      cases hoo : inp.open_orders with
      | error e =>
        rw [hoo] at hex
        exact absurd hex (by simp [IterResult.isExit])
      | ok l =>
        cases l with
        | nil =>
          exact ⟨hb, rfl, by rw [monitor_iter_zero_balance inp cost hb, hoo]⟩
        | cons o os =>
          rw [hoo] at hex
          exact absurd hex (by simp [IterResult.isExit])
    · right
      have hpos : 0 < get_token_balance inp.balance_result := not_le.mp hb
      cases hob : inp.book with
      | error e =>
        have hcaught : monitor_iter inp cost = IterResult.caught := by
          simp only [monitor_iter]
          rw [if_neg hb, hob]
        rw [hcaught] at hex
        exact absurd hex (by simp [IterResult.isExit])
      | ok ob =>
        by_cases hae : ob.asks.isEmpty
        · have hwb : monitor_iter inp cost = IterResult.waitBook := by
            simp only [monitor_iter]
            rw [if_neg hb, hob]
            simp [hae]
          rw [hwb] at hex
          exact absurd hex (by simp [IterResult.isExit])
        · by_cases hbe : ob.bids.isEmpty
          · have hwb : monitor_iter inp cost = IterResult.waitBook := by
              simp only [monitor_iter]
              rw [if_neg hb, hob]
              simp [hae, hbe]
            rw [hwb] at hex
            exact absurd hex (by simp [IterResult.isExit])
          · have hasks : ob.asks ≠ [] := by
              simpa [List.isEmpty_iff] using hae
            have hbids : ob.bids ≠ [] := by
              simpa [List.isEmpty_iff] using hbe
            have hiter := monitor_iter_priced inp cost
              (get_token_balance inp.balance_result) ob rfl hpos hob hasks hbids
            by_cases hge : get_token_balance inp.balance_result * best_bid ob
                ≥ cost * (13 / 10)
            · exact ⟨ob, rfl, hpos, hasks, hbids, hge, by rw [hiter, if_pos hge]⟩
            · have hhold : monitor_iter inp cost
                  = IterResult.hold
                      (get_token_balance inp.balance_result * best_bid ob)
                      (cost * (13 / 10)) := by
                rw [hiter, if_neg hge]
              rw [hhold] at hex
              exact absurd hex (by simp [IterResult.isExit])

/-- Witness for the amended C2: a positive balance with a raising order-book
query yields the caught branch, so the loop continues. -/
theorem claim2_amended_witness :
    monitor_iter (⟨Except.ok (some 1), Except.ok [], Except.error ()⟩ : IterInput) 6
      = IterResult.caught :=
  (claim2_amended_iteration_exits
      (⟨Except.ok (some 1), Except.ok [], Except.error ()⟩ : IterInput) 6).2.2.1
    (by norm_num [get_token_balance]) () rfl

/-- Claim C5: when the gateway fails (by exception or non-success response)
for exactly one of the N ladder submissions, the Execution Engine raises no
exception, attempts all N submissions, returns exactly the identifiers of
the successful submissions in order, and hence exactly N - 1 identifiers. -/
theorem claim5_partial_failure (gw : ℕ → SubmitOutcome) (tok : Option String)
    (prices : List ℚ) (size : ℚ) (k : ℕ) (hk : k < prices.length)
    (hfail : (gw k).isSuccess = false)
    (hsucc : ∀ j, j < prices.length → j ≠ k → (gw j).isSuccess = true) :
    (place_ladder_orders gw tok prices size).1.length = prices.length
    ∧ (place_ladder_orders gw tok prices size).2
        = (List.range prices.length).filterMap (fun j => (gw j).successId)
    ∧ (place_ladder_orders gw tok prices size).2.length = prices.length - 1 := by
  have h2 : (place_ladder_orders gw tok prices size).2
      = (List.range prices.length).filterMap (fun j => (gw j).successId) := by
    rw [place_ladder_orders, ladder_loop_ids gw tok size prices 0,
      List.range_eq_range']
  refine ⟨?_, h2, ?_⟩
  · rw [place_ladder_orders, ladder_loop_attempts gw tok size prices 0]
    exact List.length_map prices _
  · rw [h2, length_filterMap_countP]
    exact countP_range_one_false (fun j => (gw j).isSuccess) prices.length k hk
      hfail hsucc

/-- Witness for C5: three submissions where exactly the second raises; all
three are attempted and exactly the two successful ids come back. -/
theorem claim5_witness :
    (place_ladder_orders
        (fun i => if i = 1 then SubmitOutcome.exn
          else SubmitOutcome.resp (some ⟨true, some "ok"⟩))
        (some "tok") [1 / 10, 2 / 10, 3 / 10] 10).1.length
      = ([1 / 10, 2 / 10, 3 / 10] : List ℚ).length
    ∧ (place_ladder_orders
        (fun i => if i = 1 then SubmitOutcome.exn
          else SubmitOutcome.resp (some ⟨true, some "ok"⟩))
        (some "tok") [1 / 10, 2 / 10, 3 / 10] 10).2
      = (List.range ([1 / 10, 2 / 10, 3 / 10] : List ℚ).length).filterMap
          (fun j => ((fun i => if i = 1 then SubmitOutcome.exn
            else SubmitOutcome.resp (some ⟨true, some "ok"⟩)) j).successId)
    ∧ (place_ladder_orders
        (fun i => if i = 1 then SubmitOutcome.exn
          else SubmitOutcome.resp (some ⟨true, some "ok"⟩))
        (some "tok") [1 / 10, 2 / 10, 3 / 10] 10).2.length
      = ([1 / 10, 2 / 10, 3 / 10] : List ℚ).length - 1 :=
  claim5_partial_failure
    (fun i => if i = 1 then SubmitOutcome.exn
      else SubmitOutcome.resp (some ⟨true, some "ok"⟩))
    (some "tok") [1 / 10, 2 / 10, 3 / 10] 10 1 (by decide) (by decide)
    (fun j hj hne => by
      have hj3 : j < 3 := by simpa using hj
      interval_cases j
      · rfl
      · exact absurd rfl hne
      · rfl)

/-- Submission and monitor events are never time-gate events. -/
theorem countP_timeGate_aux (placed : List OrderArgs) (mons : List IterResult) :
    (placed.map RunEvent.submit
        ++ mons.map RunEvent.monitorIter).countP RunEvent.isTimeGate = 0 := by
  rw [List.countP_eq_zero]
  intro e he
  rcases List.mem_append.mp he with h | h <;>
    rcases List.mem_map.mp h with ⟨x, hx, rfl⟩ <;>
      simp [RunEvent.isTimeGate]

/-- Claim C8: in every session that reaches token selection, the Time Gate
is evaluated exactly once; it is the first event of the session, before any
ladder submission, and no later event (submission or monitor iteration) is
a gate evaluation; when the gate is false the session ends with no
submission and no monitor iteration at all. -/
theorem claim8_gate_once (m : MarketData) (idx : ℕ) (now th : ℚ)
    (gw : ℕ → SubmitOutcome) (stream : ℕ → IterInput) (fuel : ℕ)
    (tok : Option String) (hsel : select_token m idx = Except.ok tok) :
    ((run (some m) idx now th gw stream fuel).1.countP RunEvent.isTimeGate = 1)
    ∧ (∃ rest, (run (some m) idx now th gw stream fuel).1
        = RunEvent.timeGate (check_time_remaining m now th) :: rest
        ∧ rest.countP RunEvent.isTimeGate = 0)
    ∧ (check_time_remaining m now th = false →
        run (some m) idx now th gw stream fuel
          = ([RunEvent.timeGate false], RunOutcome.skipped)) := by
  have hrun_t : check_time_remaining m now th = true →
      run (some m) idx now th gw stream fuel
        = (RunEvent.timeGate true
            :: ((place_ladder_orders gw tok ladder_prices size_per_step).1.map
                  RunEvent.submit
              ++ (monitor_run stream
                    (total_max_cost ladder_prices size_per_step) fuel).map
                  RunEvent.monitorIter),
            RunOutcome.completed) := by
    intro hg
    simp [run, hsel, hg]
  have hrun_f : check_time_remaining m now th = false →
      run (some m) idx now th gw stream fuel
        = ([RunEvent.timeGate false], RunOutcome.skipped) := by
    intro hg
    simp [run, hsel, hg]
  by_cases hg : check_time_remaining m now th = true
  · refine ⟨?_, ⟨_, ?_, countP_timeGate_aux
        (place_ladder_orders gw tok ladder_prices size_per_step).1
        (monitor_run stream (total_max_cost ladder_prices size_per_step) fuel)⟩,
      fun hf => by rw [hg] at hf; simp at hf⟩
    · rw [hrun_t hg]
      simp [List.countP_cons, countP_timeGate_aux, RunEvent.isTimeGate]
    · rw [hrun_t hg, hg]
  · have hg' : check_time_remaining m now th = false := by
      simpa using hg
    refine ⟨?_, ⟨[], ?_, rfl⟩, hrun_f⟩
    · rw [hrun_f hg']
      simp [List.countP_cons, RunEvent.isTimeGate]
    · rw [hrun_f hg', hg']

/-- Witness for C8: a two-token market with 20 minutes remaining and
threshold 13; the session trace contains exactly one time-gate event. -/
theorem claim8_witness :
    (run (some ⟨some 1200, none, [⟨some "t0"⟩, ⟨some "t1"⟩], none⟩) 1 0 13
        (fun _ => SubmitOutcome.exn)
        (fun _ => (⟨Except.error (), Except.error (), Except.error ()⟩ : IterInput))
        0).1.countP RunEvent.isTimeGate = 1 :=
  (claim8_gate_once ⟨some 1200, none, [⟨some "t0"⟩, ⟨some "t1"⟩], none⟩ 1 0 13
      (fun _ => SubmitOutcome.exn)
      (fun _ => (⟨Except.error (), Except.error (), Except.error ()⟩ : IterInput))
      0 (some "t1") rfl).1

/-- Claim C10: when the resolved market's token list is non-empty but has
at most outcome_index entries, the session entry point ends in the
unguarded IndexError from the bounds-unchecked token access, with an empty
event trace: no time-gate evaluation and no order placement ever runs. -/
theorem claim10_index_error (m : MarketData) (idx : ℕ) (now th : ℚ)
    (gw : ℕ → SubmitOutcome) (stream : ℕ → IterInput) (fuel : ℕ)
    (hne : m.tokens ≠ []) (hlen : m.tokens.length ≤ idx) :
    run (some m) idx now th gw stream fuel = ([], RunOutcome.indexError) := by
  have hsel : select_token m idx = Except.error RunOutcome.indexError := by
    cases htk : m.tokens with
    | nil => exact absurd htk hne
    | cons t ts =>
      have hnlt : ¬ idx < (t :: ts).length := by
        rw [htk] at hlen
        omega
      simp only [select_token, htk]
      rw [dif_neg hnlt]
  simp [run, hsel]

/-- Witness for C10: a single-token market with the default outcome index 1
raises IndexError before the time gate or any order placement. -/
theorem claim10_witness :
    run (some ⟨some 1200, none, [⟨some "only"⟩], none⟩) 1 0 13
        (fun _ => SubmitOutcome.exn)
        (fun _ => (⟨Except.error (), Except.error (), Except.error ()⟩ : IterInput))
        0
      = ([], RunOutcome.indexError) :=
  claim10_index_error ⟨some 1200, none, [⟨some "only"⟩], none⟩ 1 0 13
    (fun _ => SubmitOutcome.exn)
    (fun _ => (⟨Except.error (), Except.error (), Except.error ()⟩ : IterInput))
    0 (by simp) (by simp)
